import Mathlib

/-!
Verification development for the GBL image creation tool (`tools/create_gbl.py`).

The script's core is shallowly embedded here:
  * the three text-format parsers (`parse_simple_config`, `parse_c_header_defines`,
    `parse_properties_file`),
  * the parent-directory file locator (`find_file_in_parent_dirs`),
  * the dynamic metadata resolver (the chain of `if name in gbl_dynamic` blocks),
  * the commander invocation assembler (`commander_args`).

Python strings are embedded as `String` / `List Char`; Python dicts as association
lists with in-place overwrite (`dictSet`); raised exceptions as `Except PyErr`;
the filesystem as a partial map `String → Option String` from paths to contents.
`ast.literal_eval` (standard library) is modelled restricted to decimal integers
and simple double-quoted strings; all other literal forms count as evaluation
failures, matching the caught-`ValueError` path of the script.
-/

/-- Python exception kinds raised (or caught) by the script. -/
inductive PyErr where
  | valueError
  | keyError
  | indexError
  | fileNotFoundError
  | typeError
deriving DecidableEq, Repr

/-- Result values of `ast.literal_eval` as used by the script: ints and strings. -/
inductive PyLit where
  | int : Int → PyLit
  | str : String → PyLit
deriving DecidableEq, Repr

/-- Python str() conversion, used by the dot-join of the version parts. -/
def pyStr : PyLit → String
  | PyLit.int n => toString n
  | PyLit.str s => s

/-- Python `dict` lookup `d[k]` (as an `Option`): first entry with the given key. -/
def dictFind? {α : Type} : List (String × α) → String → Option α
  | [], _ => none
  | (k2, v) :: rest, k => if k2 = k then some v else dictFind? rest k

/-- Python `dict` assignment `d[k] = v`: overwrite in place, append if new. -/
def dictSet {α : Type} : List (String × α) → String → α → List (String × α)
  | [], k, v => [(k, v)]
  | (k2, v2) :: rest, k, v =>
      if k2 = k then (k, v) :: rest else (k2, v2) :: dictSet rest k v

/-- Python `k in d`. -/
def dictHasKey {α : Type} (d : List (String × α)) (k : String) : Bool :=
  (dictFind? d k).isSome

/-- The whitespace characters stripped/split by Python `str.strip()` and
`str.split(None)` (restricted to the ASCII whitespace the inputs contain). -/
def isPySpace (c : Char) : Bool :=
  c == ' ' || c == '\t' || c == '\n' || c == '\r' || c == '\x0b' || c == '\x0c'

/-- Python `str.strip()` on a line (as a character list). -/
def pyStrip (l : List Char) : List Char :=
  ((l.dropWhile isPySpace).reverse.dropWhile isPySpace).reverse

/-- Python `str.split(sep)` for a one-character separator: every occurrence splits,
empty pieces are kept (so `"".split(sep) == [""]`). -/
def splitOnChar (sep : Char) : List Char → List (List Char)
  | [] => [[]]
  | c :: rest =>
      if c = sep then [] :: splitOnChar sep rest
      else
        match splitOnChar sep rest with
        | [] => [[c]]
        | t :: ts => (c :: t) :: ts

/-- Python `line.split(x, 1)` for a one-character separator `x`: the part before the
first occurrence, and (when the separator occurs) the remainder after it. -/
def splitFirst1 (sep : Char) : List Char → List Char × Option (List Char)
  | [] => ([], none)
  | c :: rest =>
      if c = sep then ([], some rest)
      else
        let r := splitFirst1 sep rest
        (c :: r.1, r.2)

/-- Python `line.split(None, 2)`: split on whitespace runs, at most twice; leading
whitespace is skipped, and the third piece (when present) is the raw remainder after
the second separator run. -/
def pySplitWsMax2 (l : List Char) : List (List Char) :=
  let l1 := l.dropWhile isPySpace
  match l1 with
  | [] => []
  | _ =>
    let t1 := l1.takeWhile (fun c => !(isPySpace c))
    let r1 := (l1.dropWhile (fun c => !(isPySpace c))).dropWhile isPySpace
    match r1 with
    | [] => [t1]
    | _ =>
      let t2 := r1.takeWhile (fun c => !(isPySpace c))
      let r2 := (r1.dropWhile (fun c => !(isPySpace c))).dropWhile isPySpace
      match r2 with
      | [] => [t1, t2]
      | _ => [t1, t2, r2]

/-- Decimal digit run to a natural number. -/
def digitsToNat (l : List Char) : Nat :=
  l.foldl (fun n c => n * 10 + (c.toNat - 48)) 0

/-- Modelled from the Python standard library `ast.literal_eval`, restricted to the
literal forms the script's header files use: decimal integers (optionally negative)
and simple double-quoted strings without escapes. Every other token is treated as an
evaluation failure (`none`), matching the script's caught-`ValueError` path. -/
def evalLit (s : List Char) : Option PyLit :=
  if s ≠ [] ∧ s.all Char.isDigit then some (PyLit.int (digitsToNat s))
  else
    match s with
    | '-' :: rest =>
        if rest ≠ [] ∧ rest.all Char.isDigit then some (PyLit.int (-(digitsToNat rest)))
        else none
    | '"' :: rest =>
        if rest.getLast? = some '"'
            ∧ rest.dropLast.all (fun c => c ≠ '"' && c ≠ '\\') then
          some (PyLit.str (String.mk rest.dropLast))
        else none
    | _ => none

/-- One loop iteration of `parse_simple_config` (lines 24-31 of the script). -/
def simpleLine (d : List (String × String)) (rawLine : List Char) : List (String × String) :=
  if pyStrip rawLine = [] then d
  else if (pyStrip rawLine).head? = some '#' then d
  else if '=' ∉ pyStrip rawLine then d
  else
    match splitFirst1 '=' (pyStrip rawLine) with
    | (k, some v) => dictSet d (String.mk (pyStrip k)) (String.mk (pyStrip v))
    | (_, none) => d

/-- The function `parse_simple_config` (lines 18-33): simple `key=value` file to a dict. -/
def parse_simple_config (fileContent : String) : List (String × String) :=
  (splitOnChar '\n' fileContent.toList).foldl simpleLine []

/-- One loop iteration of `parse_c_header_defines` (lines 42-56): only lines starting
with the literal `#define` are considered; the remainder is split into at most a key
and a value token; unpacking fails (`ValueError`) when there is no key token at all;
a failing literal evaluation of the value (including the absent-value case, where the
value is `None`) is silently skipped. -/
def defineLine (d : List (String × PyLit)) (line : List Char) :
    Except PyErr (List (String × PyLit)) :=
  if ("#define".toList).isPrefixOf line = false then Except.ok d
  else
    match pySplitWsMax2 line with
    | [] => Except.error PyErr.valueError
    | [_] => Except.error PyErr.valueError
    | [_, _] => Except.ok d
    | [_, k, v] =>
        match evalLit v with
        | some l => Except.ok (dictSet d (String.mk k) l)
        | none => Except.ok d
    | _ => Except.error PyErr.valueError

/-- Fold a fallible per-line action over the `"\n"`-split lines of a file, stopping
at the first raised exception (Python's loop semantics). -/
def foldLinesE {α : Type} (step : α → List Char → Except PyErr α) (init : α)
    (fileContent : String) : Except PyErr α :=
  (splitOnChar '\n' fileContent.toList).foldl
    (fun acc line => Except.bind acc (fun d => step d line)) (Except.ok init)

/-- The function `parse_c_header_defines` (lines 36-58). -/
def parse_c_header_defines (fileContent : String) : Except PyErr (List (String × PyLit)) :=
  foldLinesE defineLine [] fileContent

/-- The character-by-character value tokenizer of `parse_properties_file`
(lines 78-94): a double backslash contributes a literal space to the current token,
an unescaped space terminates the current token, every other character is appended
verbatim, and a non-empty trailing token is appended at end of line. -/
def propTokens : List Char → List Char → List String
  | [], cur => if cur = [] then [] else [String.mk cur]
  | c :: c2 :: rest, cur =>
      if c = '\\' ∧ c2 = '\\' then propTokens rest (cur ++ [' '])
      else if c = ' ' then String.mk cur :: propTokens (c2 :: rest) []
      else propTokens (c2 :: rest) (cur ++ [c])
  | [c], cur =>
      if c = ' ' then String.mk cur :: propTokens [] []
      else propTokens [] (cur ++ [c])

/-- One loop iteration of `parse_properties_file` (lines 68-94): strip the line, skip
blanks and `#` comments, split on the first `=` (raising `ValueError` when there is
none), and tokenize the raw value. -/
def propsLine (d : List (String × List String)) (rawLine : List Char) :
    Except PyErr (List (String × List String)) :=
  if pyStrip rawLine = [] then Except.ok d
  else if (pyStrip rawLine).head? = some '#' then Except.ok d
  else
    match splitFirst1 '=' (pyStrip rawLine) with
    | (k, some v) => Except.ok (dictSet d (String.mk (pyStrip k)) (propTokens v []))
    | (_, none) => Except.error PyErr.valueError

/-- The function `parse_properties_file` (lines 61-96). -/
def parse_properties_file (fileContent : String) :
    Except PyErr (List (String × List String)) :=
  foldLinesE propsLine [] fileContent

/-- The loop of `find_file_in_parent_dirs` (lines 99-114), on an abstract filesystem. Directories
are absolute paths given as component lists from the filesystem root (`[]` is the
root itself; `Path.resolve()` is modelled as the input already being absolute), and
`has dir fn` tells whether directory `dir` contains a file named `fn`. The loop is
driven on the reversed component list so that taking the parent is structural. -/
def findAux (has : List String → String → Bool) (fn : String) :
    List String → Except PyErr (List String)
  | [] =>
      if has [] fn then Except.ok [fn]
      else Except.error PyErr.fileNotFoundError
  | c :: parent =>
      if has ((c :: parent).reverse) fn then Except.ok ((c :: parent).reverse ++ [fn])
      else findAux has fn parent

/-- The function `find_file_in_parent_dirs(root, filename)`: the returned path is the directory
that was found to contain the file, with the filename appended. -/
def find_file_in_parent_dirs (has : List String → String → Bool)
    (root : List String) (fn : String) : Except PyErr (List String) :=
  findAux has fn root.reverse

/-- The ancestor chain visited by the locator, nearest first, as reversed component
lists: `rev`, its tail, ..., `[]`. -/
def ancestorsAux : List String → List (List String)
  | [] => [[]]
  | c :: parent => (c :: parent).reverse :: ancestorsAux parent

/-- The directories the locator visits, nearest first: the starting directory, its
parent, ..., down to the filesystem root. -/
def ancestors (root : List String) : List (List String) :=
  ancestorsAux root.reverse

/-- The filesystem seen by the resolver: a partial map from path strings to file
contents (`none` models `FileNotFoundError` on `read_text`). -/
abbrev FS := String → Option String

/-- Python `path.read_text()`. -/
def readText (fs : FS) (p : String) : Except PyErr String :=
  match fs p with
  | some t => Except.ok t
  | none => Except.error PyErr.fileNotFoundError

/-- Python `d[k]` on a dict, raising `KeyError` when absent. -/
def pyGetItem {α : Type} (d : List (String × α)) (k : String) : Except PyErr α :=
  match dictFind? d k with
  | some v => Except.ok v
  | none => Except.error PyErr.keyError

/-- Python `l[0]`, raising `IndexError` on an empty list. -/
def pyIndex0 (l : List String) : Except PyErr String :=
  match l with
  | [] => Except.error PyErr.indexError
  | v :: _ => Except.ok v

/-- Python `str + x`: string concatenation, raising `TypeError` unless `x` is a string. -/
def pyAddStr (a : String) (b : PyLit) : Except PyErr String :=
  match b with
  | PyLit.str s => Except.ok (a ++ s)
  | PyLit.int _ => Except.error PyErr.typeError

/-- The `ezsp_version` extraction (lines 181-185). -/
def extract_ezsp (fs : FS) (gsdkPath : String) : Except PyErr PyLit :=
  Except.bind (readText fs (gsdkPath ++ "/protocol/zigbee/esf.properties")) (fun txt =>
  Except.bind (parse_properties_file txt) (fun props =>
  Except.bind (pyGetItem props "version") (fun vs =>
  Except.bind (pyIndex0 vs) (fun v0 =>
  Except.ok (PyLit.str v0)))))

/-- The MAJOR.MINOR.PATCH join of the `cpc_version` extraction (lines 188-197). -/
def cpc_base (fs : FS) (gsdkPath : String) : Except PyErr String :=
  Except.bind (readText fs (gsdkPath ++ "/platform/common/inc/sl_gsdk_version.h")) (fun txt =>
  Except.bind (parse_c_header_defines txt) (fun h =>
  Except.bind (pyGetItem h "SL_GSDK_MAJOR_VERSION") (fun ma =>
  Except.bind (pyGetItem h "SL_GSDK_MINOR_VERSION") (fun mi =>
  Except.bind (pyGetItem h "SL_GSDK_PATCH_VERSION") (fun pa =>
  Except.ok (pyStr ma ++ "." ++ pyStr mi ++ "." ++ pyStr pa))))))

/-- The `cpc_version` extraction (lines 187-207): version join, then the optional
secondary suffix header, whose absence (and only whose absence) is caught by the
`try`/`except FileNotFoundError` and treated as an empty defines dict. -/
def extract_cpc (fs : FS) (gsdkPath projectRoot : String) : Except PyErr PyLit :=
  Except.bind (cpc_base fs gsdkPath) (fun base =>
  Except.bind (match fs (projectRoot ++ "/config/internal_app_config.h") with
    | none => Except.ok []
    | some t => parse_c_header_defines t) (fun cfg =>
  match dictFind? cfg "CPC_SECONDARY_APP_VERSION_SUFFIX" with
  | some suf => Except.bind (pyAddStr base suf) (fun s => Except.ok (PyLit.str s))
  | none => Except.ok (PyLit.str base)))

/-- The `zwave_version` extraction (lines 209-213). -/
def extract_zwave (fs : FS) (gsdkPath : String) : Except PyErr PyLit :=
  Except.bind (readText fs (gsdkPath ++ "/protocol/z-wave/esf.properties")) (fun txt =>
  Except.bind (parse_properties_file txt) (fun props =>
  Except.bind (pyGetItem props "version") (fun vs =>
  Except.bind (pyIndex0 vs) (fun v0 =>
  Except.ok (PyLit.str v0)))))

/-- The `ot_rcp_version` extraction (lines 215-219): the `PACKAGE_STRING` value is
passed through unmodified. -/
def extract_ot (fs : FS) (projectRoot : String) : Except PyErr PyLit :=
  Except.bind (readText fs (projectRoot ++ "/config/sl_openthread_generic_config.h")) (fun txt =>
  Except.bind (parse_c_header_defines txt) (fun h =>
  pyGetItem h "PACKAGE_STRING"))

/-- The `gecko_bootloader_version` extraction (lines 221-232). -/
def extract_btl (fs : FS) (gsdkPath : String) : Except PyErr PyLit :=
  Except.bind (readText fs (gsdkPath ++ "/platform/bootloader/config/btl_config.h")) (fun txt =>
  Except.bind (parse_c_header_defines txt) (fun h =>
  Except.bind (pyGetItem h "BOOTLOADER_VERSION_MAIN_MAJOR") (fun ma =>
  Except.bind (pyGetItem h "BOOTLOADER_VERSION_MAIN_MINOR") (fun mi =>
  Except.bind (pyGetItem h "BOOTLOADER_VERSION_MAIN_CUSTOMER") (fun cu =>
  Except.ok (PyLit.str (pyStr ma ++ "." ++ pyStr mi ++ "." ++ pyStr cu)))))))

/-- The base metadata record built at lines 171-176. -/
def baseMetadata (sdkVersion fwType baudrate : PyLit) : List (String × PyLit) :=
  [("metadata_version", PyLit.int 1), ("sdk_version", sdkVersion),
   ("fw_type", fwType), ("baudrate", baudrate)]

/-- One `if name in gbl_dynamic:` block of the dispatch (lines 181-232): when the
field is declared, run its extraction and store the value under the field name. -/
def runStep (name : String) (dyn : List String) (ex : Except PyErr PyLit)
    (m : List (String × PyLit)) : Except PyErr (List (String × PyLit)) :=
  if name ∈ dyn then Except.map (fun v => dictSet m name v) ex else Except.ok m

/-- The dynamic metadata dispatch (lines 179-232): the five recognized field names
are checked in source order, each contributing one metadata entry when declared. -/
def resolveDynamic (fs : FS) (gsdkPath projectRoot : String) (dyn : List String)
    (m : List (String × PyLit)) : Except PyErr (List (String × PyLit)) :=
  Except.bind (runStep "ezsp_version" dyn (extract_ezsp fs gsdkPath) m) (fun m1 =>
  Except.bind (runStep "cpc_version" dyn (extract_cpc fs gsdkPath projectRoot) m1) (fun m2 =>
  Except.bind (runStep "zwave_version" dyn (extract_zwave fs gsdkPath) m2) (fun m3 =>
  Except.bind (runStep "ot_rcp_version" dyn (extract_ot fs projectRoot) m3) (fun m4 =>
  runStep "gecko_bootloader_version" dyn (extract_btl fs gsdkPath) m4))))

/-- The five dynamic field names the dispatch recognizes, in source order. -/
def recognizedFields : List String :=
  ["ezsp_version", "cpc_version", "zwave_version", "ot_rcp_version",
   "gecko_bootloader_version"]

/-- Field name to its extraction, as dispatched at lines 181-232. -/
def extractionTable (fs : FS) (gsdkPath projectRoot : String) :
    List (String × Except PyErr PyLit) :=
  [("ezsp_version", extract_ezsp fs gsdkPath),
   ("cpc_version", extract_cpc fs gsdkPath projectRoot),
   ("zwave_version", extract_zwave fs gsdkPath),
   ("ot_rcp_version", extract_ot fs projectRoot),
   ("gecko_bootloader_version", extract_btl fs gsdkPath)]

/-- The optional flag-and-value token pairs appended at lines 259-266: present
settings contribute a pair, absent or null settings (`.get(k, None) is None`)
contribute nothing. -/
def optPair (flag : String) : Option String → List String
  | some v => [flag, v]
  | none => []

/-- The invocation token list `commander_args` (lines 246-266). `out_file.with_suffix(".gbl")` is a stdlib
path operation and is passed in as `outGbl`; `fwType` is `gbl_metadata["fw_type"]`
and the three `Option String` settings are the `gbl_metadata.get(k, None)` results
(`none` standing for an absent key or an explicit null). -/
def commander_args (outGbl outFile devicePartId metadataPath fwType : String)
    (compression signKey encryptKey : Option String) : List String :=
  let args := ["commander", "gbl", "create", outGbl,
    (if fwType ≠ "gecko-bootloader" then "--app" else "--bootloader"),
    outFile, "--device", devicePartId, "--metadata", metadataPath]
  let args := args ++ (match compression with
    | some c => ["--compress", c]
    | none => [])
  let args := args ++ (match signKey with
    | some k => ["--sign", k]
    | none => [])
  args ++ (match encryptKey with
    | some k => ["--encrypt", k]
    | none => [])

/-- The SDK version header of the resolver test scenario. -/
def gsdkVersionHeader : String :=
  "#define SL_GSDK_MAJOR_VERSION 4\n#define SL_GSDK_MINOR_VERSION 2\n#define SL_GSDK_PATCH_VERSION 0"

/-- Scenario filesystem: version header present, secondary suffix header absent. -/
def c2fsNoSuffix : FS := fun p =>
  if p = "/gsdk/platform/common/inc/sl_gsdk_version.h" then some gsdkVersionHeader
  else none

/-- Scenario filesystem: version header present and a secondary suffix header
defining `CPC_SECONDARY_APP_VERSION_SUFFIX` as the string `"-beta"`. -/
def c2fsBeta : FS := fun p =>
  if p = "/gsdk/platform/common/inc/sl_gsdk_version.h" then some gsdkVersionHeader
  else if p = "/proj/config/internal_app_config.h" then
    some "#define CPC_SECONDARY_APP_VERSION_SUFFIX \"-beta\""
  else none

/-- A base metadata record for the concrete resolver scenarios. -/
def c2base : List (String × PyLit) :=
  baseMetadata (PyLit.str "4.4.0") (PyLit.str "rcp-uart-802154") (PyLit.int 460800)

/-! ### Helper lemmas -/

theorem splitFirst1_of_not_mem {sep : Char} {l : List Char} (h : sep ∉ l) :
    splitFirst1 sep l = (l, none) := by
  induction l with
  | nil => rfl
  | cons c rest ih =>
      have hc : ¬ (c = sep) := fun he => h (he ▸ List.mem_cons_self c rest)
      have hr : sep ∉ rest := fun hm => h (List.mem_cons_of_mem c hm)
      simp [splitFirst1, hc, ih hr]

theorem splitFirst1_append {sep : Char} {l1 l2 : List Char} (h : sep ∉ l1) :
    splitFirst1 sep (l1 ++ sep :: l2) = (l1, some l2) := by
  induction l1 with
  | nil => simp [splitFirst1]
  | cons c rest ih =>
      have hc : ¬ (c = sep) := fun he => h (he ▸ List.mem_cons_self c rest)
      have hr : sep ∉ rest := fun hm => h (List.mem_cons_of_mem c hm)
      simp [splitFirst1, hc, ih hr]

theorem dictFind?_dictSet_self {α : Type} (m : List (String × α)) (k : String) (v : α) :
    dictFind? (dictSet m k v) k = some v := by
  induction m with
  | nil => simp [dictSet, dictFind?]
  | cons p rest ih =>
      by_cases h : p.1 = k
      · simp [dictSet, h, dictFind?]
      · simp [dictSet, h, dictFind?, ih]

theorem dictFind?_dictSet_ne {α : Type} {m : List (String × α)} {k k2 : String} {v : α}
    (h : k2 ≠ k) : dictFind? (dictSet m k v) k2 = dictFind? m k2 := by
  have h2 : ¬ (k = k2) := fun he => h he.symm
  induction m with
  | nil => simp [dictSet, dictFind?, h2]
  | cons p rest ih =>
      by_cases hp : p.1 = k
      · simp [dictSet, hp, dictFind?, h2]
      · simp [dictSet, hp, dictFind?, ih]

theorem dictHasKey_dictSet {α : Type} (m : List (String × α)) (k k2 : String) (v : α) :
    dictHasKey (dictSet m k v) k2 = true ↔ (dictHasKey m k2 = true ∨ k2 = k) := by
  by_cases h : k2 = k
  · subst h
    simp [dictHasKey, dictFind?_dictSet_self]
  · simp [dictHasKey, dictFind?_dictSet_ne h, h]

theorem bindE_ok {α β : Type} {x : Except PyErr α} {f : α → Except PyErr β}
    {b : β} (h : Except.bind x f = Except.ok b) :
    ∃ a, x = Except.ok a ∧ f a = Except.ok b := by
  cases x with
  | error e => simp [Except.bind] at h
  | ok a => exact ⟨a, rfl, h⟩

theorem bindE_error_of_forall {α β : Type} (x : Except PyErr α)
    {f : α → Except PyErr β} (h : ∀ a, ∃ e, f a = Except.error e) :
    ∃ e, Except.bind x f = Except.error e := by
  cases x with
  | error e => exact ⟨e, rfl⟩
  | ok a => simpa [Except.bind] using h a

theorem bindE_ok_left {α β : Type} (a : α) (f : α → Except PyErr β) :
    Except.bind (Except.ok a) f = f a := rfl

theorem bindE_error_left {α β : Type} (e : PyErr) (f : α → Except PyErr β) :
    Except.bind (Except.error e : Except PyErr α) f = Except.error e := rfl

theorem runStep_not_mem {name : String} {dyn : List String}
    (ex : Except PyErr PyLit) (m : List (String × PyLit)) (h : name ∉ dyn) :
    runStep name dyn ex m = Except.ok m := by
  simp [runStep, h]

theorem runStep_mem_error {name : String} {dyn : List String} {ex : Except PyErr PyLit}
    {e : PyErr} (m : List (String × PyLit)) (hmem : name ∈ dyn)
    (he : ex = Except.error e) : runStep name dyn ex m = Except.error e := by
  simp [runStep, hmem, he, Except.map]

theorem runStep_ok_cases {name : String} {dyn : List String} {ex : Except PyErr PyLit}
    {m m2 : List (String × PyLit)} (h : runStep name dyn ex m = Except.ok m2) :
    (name ∉ dyn ∧ m2 = m) ∨
      (name ∈ dyn ∧ ∃ v, ex = Except.ok v ∧ m2 = dictSet m name v) := by
  by_cases hmem : name ∈ dyn
  · simp only [runStep, if_pos hmem] at h
    cases ex with
    | error e => simp [Except.map] at h
    | ok v =>
        simp only [Except.map] at h
        exact Or.inr ⟨hmem, v, rfl, (Except.ok.injEq _ _ ▸ h).symm⟩
  · simp only [runStep, if_neg hmem] at h
    exact Or.inl ⟨hmem, (Except.ok.injEq _ _ ▸ h).symm⟩

theorem runStep_hasKey {name : String} {dyn : List String} {ex : Except PyErr PyLit}
    {m m2 : List (String × PyLit)} (h : runStep name dyn ex m = Except.ok m2)
    (k : String) :
    dictHasKey m2 k = true ↔ (dictHasKey m k = true ∨ (k = name ∧ name ∈ dyn)) := by
  rcases runStep_ok_cases h with ⟨hnm, rfl⟩ | ⟨hmem, v, _, rfl⟩
  · simp [hnm]
  · rw [dictHasKey_dictSet]
    simp [hmem]

theorem runStep_find_ne {name : String} {dyn : List String} {ex : Except PyErr PyLit}
    {m m2 : List (String × PyLit)} (h : runStep name dyn ex m = Except.ok m2)
    (k : String) (hk : k ≠ name) : dictFind? m2 k = dictFind? m k := by
  rcases runStep_ok_cases h with ⟨_, rfl⟩ | ⟨_, v, _, rfl⟩
  · rfl
  · exact dictFind?_dictSet_ne hk

theorem findAux_found {has : List String → String → Bool} {fn : String} :
    ∀ {rev : List String} {d : List String},
      (ancestorsAux rev).find? (fun dir => has dir fn) = some d →
      findAux has fn rev = Except.ok (d ++ [fn])
  | [], d => by
      intro h
      cases hr : has [] fn with
      | true =>
          simp only [ancestorsAux, List.find?, hr] at h
          cases h
          simp [findAux, hr]
      | false =>
          simp only [ancestorsAux, List.find?, hr] at h
          exact Option.noConfusion h
  | c :: parent, d => by
      intro h
      cases hr : has ((c :: parent).reverse) fn with
      | true =>
          simp only [ancestorsAux, List.find?, hr] at h
          cases h
          simp only [findAux]
          rw [if_pos (by simpa using hr)]
      | false =>
          simp only [ancestorsAux, List.find?, hr] at h
          simp only [findAux]
          rw [if_neg (by simpa using hr)]
          exact findAux_found h

theorem findAux_not_found {has : List String → String → Bool} {fn : String} :
    ∀ {rev : List String},
      (ancestorsAux rev).find? (fun dir => has dir fn) = none →
      findAux has fn rev = Except.error PyErr.fileNotFoundError
  | [] => by
      intro h
      cases hr : has [] fn with
      | true =>
          simp only [ancestorsAux, List.find?, hr] at h
          exact Option.noConfusion h
      | false =>
          simp only [findAux]
          rw [if_neg (by simpa using hr)]
  | c :: parent => by
      intro h
      cases hr : has ((c :: parent).reverse) fn with
      | true =>
          simp only [ancestorsAux, List.find?, hr] at h
          exact Option.noConfusion h
      | false =>
          simp only [ancestorsAux, List.find?, hr] at h
          simp only [findAux]
          rw [if_neg (by simpa using hr)]
          exact findAux_not_found h

/-! ### Claim theorems -/

/-- Claim C2: with `dynamic: [cpc_version]` and an SDK version header defining
`SL_GSDK_MAJOR_VERSION=4`, `SL_GSDK_MINOR_VERSION=2`, `SL_GSDK_PATCH_VERSION=0`, the
resolver sets `cpc_version` to `"4.2.0"` when the optional secondary config header is
missing (its absence tolerated), and to `"4.2.0-beta"` when that header defines
`CPC_SECONDARY_APP_VERSION_SUFFIX` as the string `"-beta"`. -/
theorem cpc_version_resolution :
    Except.map (fun m => dictFind? m "cpc_version")
        (resolveDynamic c2fsNoSuffix "/gsdk" "/proj" ["cpc_version"] c2base)
      = Except.ok (some (PyLit.str "4.2.0"))
    ∧ Except.map (fun m => dictFind? m "cpc_version")
        (resolveDynamic c2fsBeta "/gsdk" "/proj" ["cpc_version"] c2base)
      = Except.ok (some (PyLit.str "4.2.0-beta")) :=
  ⟨rfl, rfl⟩

/-- Claim C3: the locator returns the named file in the nearest directory, among the
(resolved, absolute) starting directory and its successive parents, that contains it
(`List.find?` over the ancestor chain, nearest first), and raises `FileNotFoundError`
when no directory on the chain up to and including the filesystem root contains it. -/
theorem locator_nearest_ancestor :
    (∀ (has : List String → String → Bool) (root : List String) (fn : String)
        (d : List String),
        (ancestors root).find? (fun dir => has dir fn) = some d →
        find_file_in_parent_dirs has root fn = Except.ok (d ++ [fn]))
    ∧ (∀ (has : List String → String → Bool) (root : List String) (fn : String),
        (ancestors root).find? (fun dir => has dir fn) = none →
        find_file_in_parent_dirs has root fn = Except.error PyErr.fileNotFoundError) :=
  ⟨fun _ _ _ _ h => findAux_found h, fun _ _ _ h => findAux_not_found h⟩

/-- Scenario for the locator: only directory `a` contains the target file. -/
def nestedHas : List String → String → Bool := fun dir _ => decide (dir = ["a"])

theorem locator_nearest_ancestor_witness :
    (ancestors ["a", "b", "c"]).find? (fun dir => nestedHas dir "f") = some ["a"]
    ∧ find_file_in_parent_dirs nestedHas ["a", "b", "c"] "f"
        = Except.ok (["a"] ++ ["f"]) :=
  ⟨by decide, locator_nearest_ancestor.1 nestedHas ["a", "b", "c"] "f" ["a"] (by decide)⟩

/-- Claim C5: the invocation uses the bootloader mode flag exactly when the firmware
type is the sentinel `"gecko-bootloader"` (otherwise the app flag, in token
position 4), and each of the three optional settings appends its flag-and-value token
pair exactly when present with a non-null value; absent or null settings contribute
no tokens. -/
theorem commander_invocation_tokens :
    ∀ (outGbl outFile dev meta fwType : String)
      (compression signKey encryptKey : Option String),
      ((commander_args outGbl outFile dev meta fwType compression signKey encryptKey)[4]?
          = some "--bootloader" ↔ fwType = "gecko-bootloader")
      ∧ ((commander_args outGbl outFile dev meta fwType compression signKey encryptKey)[4]?
          = some "--app" ↔ fwType ≠ "gecko-bootloader")
      ∧ (commander_args outGbl outFile dev meta fwType compression signKey encryptKey).take 10
          = ["commander", "gbl", "create", outGbl,
             (if fwType = "gecko-bootloader" then "--bootloader" else "--app"),
             outFile, "--device", dev, "--metadata", meta]
      ∧ (commander_args outGbl outFile dev meta fwType compression signKey encryptKey).drop 10
          = optPair "--compress" compression ++ optPair "--sign" signKey
            ++ optPair "--encrypt" encryptKey := by
  intro outGbl outFile dev meta fwType compression signKey encryptKey
  by_cases hfw : fwType = "gecko-bootloader" <;>
    rcases compression with _ | c <;>
    rcases signKey with _ | sk <;>
    rcases encryptKey with _ | ek <;>
    simp [commander_args, optPair, hfw]

/-- Claim C8: the two line-oriented `=` parsers disagree on a non-blank, non-comment
line with no `=`: `parse_simple_config` skips it (no entry, no error) while
`parse_properties_file` raises the value-unpacking `ValueError`, which propagates. -/
theorem eqfree_line_disagreement :
    (∀ (d1 : List (String × String)) (d2 : List (String × List String))
        (line : List Char),
        pyStrip line ≠ [] → (pyStrip line).head? ≠ some '#' → '=' ∉ pyStrip line →
        simpleLine d1 line = d1
          ∧ propsLine d2 line = Except.error PyErr.valueError)
    ∧ parse_simple_config "noequals" = []
    ∧ parse_properties_file "noequals" = Except.error PyErr.valueError := by
  refine ⟨?_, rfl, rfl⟩
  intro d1 d2 line h1 h2 h3
  constructor
  · simp [simpleLine, h1, h2, h3]
  · simp [propsLine, h1, h2, splitFirst1_of_not_mem h3]

theorem eqfree_line_disagreement_witness :
    pyStrip (String.toList "noequals") ≠ []
    ∧ simpleLine [] (String.toList "noequals") = []
    ∧ propsLine [] (String.toList "noequals") = Except.error PyErr.valueError := by
  have h := eqfree_line_disagreement.1 [] [] (String.toList "noequals")
    (by decide) (by decide) (by decide)
  exact ⟨by decide, h.1, h.2⟩

/-- Claim C10 is false as stated: the code tests `line.startswith("#define")` on the
raw line, so a line with leading whitespace whose first whitespace-separated token
starts with `#define` and which has no second token is silently skipped, not a
`ValueError`: on input `" #define"` the parse succeeds with an empty dict. -/
theorem define_unpack_cex :
    (pySplitWsMax2 (String.toList " #define")).head? = some (String.toList "#define")
    ∧ (pySplitWsMax2 (String.toList " #define")).length = 1
    ∧ parse_c_header_defines " #define" = Except.ok [] :=
  ⟨by decide, by decide, rfl⟩

/-- Claim C10, amended: for any input line that itself starts with the literal prefix
`#define` and has no second whitespace-separated token, the unpacking of the empty
remainder raises an uncaught `ValueError` instead of the line being silently skipped,
aborting the parse. -/
theorem define_unpack_valueerror :
    (∀ (d : List (String × PyLit)) (line : List Char),
        ("#define".toList).isPrefixOf line = true →
        (pySplitWsMax2 line).length ≤ 1 →
        defineLine d line = Except.error PyErr.valueError)
    ∧ parse_c_header_defines "#define" = Except.error PyErr.valueError := by
  refine ⟨?_, rfl⟩
  intro d line hpre hlen
  unfold defineLine
  rw [hpre, if_neg (by simp)]
  rcases hts : pySplitWsMax2 line with _ | ⟨t, rest2⟩
  · rfl
  · rcases rest2 with _ | ⟨u, rest3⟩
    · rfl
    · rw [hts] at hlen
      simp at hlen

theorem define_unpack_valueerror_witness :
    ("#define".toList).isPrefixOf (String.toList "#define") = true
    ∧ (pySplitWsMax2 (String.toList "#define")).length ≤ 1
    ∧ defineLine [] (String.toList "#define") = Except.error PyErr.valueError :=
  ⟨by decide, by decide,
    define_unpack_valueerror.1 [] (String.toList "#define") (by decide) (by decide)⟩

/-- Claim C1: for a non-blank, non-comment line, `parse_properties_file` splits on
the first `=` and tokenizes the value character by character: each two-character
double-backslash sequence contributes one literal space to the current token, each
unescaped space terminates the current token and starts a new one, all other
characters are appended verbatim, a non-empty trailing token is appended at end of
line; and the single line `version=1\\2\\3 extra` (literal double backslashes)
parses to `{"version": ["1 2 3", "extra"]}`. -/
theorem properties_line_tokenization :
    parse_properties_file "version=1\\\\2\\\\3 extra"
        = Except.ok [("version", ["1 2 3", "extra"])]
    ∧ (∀ (d : List (String × List String)) (rawLine : List Char) (l1 l2 : List Char),
        pyStrip rawLine = l1 ++ '=' :: l2 → '=' ∉ l1 →
        (pyStrip rawLine).head? ≠ some '#' →
        propsLine d rawLine
          = Except.ok (dictSet d (String.mk (pyStrip l1)) (propTokens l2 [])))
    ∧ (∀ (rest cur : List Char),
        propTokens ('\\' :: '\\' :: rest) cur = propTokens rest (cur ++ [' ']))
    ∧ (∀ (rest cur : List Char),
        propTokens (' ' :: rest) cur = String.mk cur :: propTokens rest [])
    ∧ (∀ (c : Char) (rest cur : List Char), c ≠ ' ' → c ≠ '\\' →
        propTokens (c :: rest) cur = propTokens rest (cur ++ [c]))
    ∧ (∀ (rest cur : List Char), rest.head? ≠ some '\\' →
        propTokens ('\\' :: rest) cur = propTokens rest (cur ++ ['\\']))
    ∧ (∀ (cur : List Char), cur ≠ [] → propTokens [] cur = [String.mk cur])
    ∧ propTokens [] [] = [] := by
  refine ⟨rfl, ?_, ?_, ?_, ?_, ?_, ?_, rfl⟩
  · intro d rawLine l1 l2 heq hnm hhash
    unfold propsLine
    rw [heq, if_neg (by simp), if_neg (heq ▸ hhash), splitFirst1_append hnm]
  · intro rest cur
    simp [propTokens]
  · intro rest cur
    rcases rest with _ | ⟨c2, rest2⟩
    · simp [propTokens]
    · simp [propTokens]
  · intro c rest cur hsp hbs
    rcases rest with _ | ⟨c2, rest2⟩
    · simp [propTokens, hsp]
    · simp [propTokens, hsp, hbs]
  · intro rest cur hh
    rcases rest with _ | ⟨c2, rest2⟩
    · simp [propTokens]
    · have hc2 : ¬ (c2 = '\\') := by simpa using hh
      simp [propTokens, hc2]
  · intro cur hc
    simp [propTokens, hc]

theorem properties_line_tokenization_witness :
    pyStrip (String.toList "a=b c") = String.toList "a" ++ '=' :: String.toList "b c"
    ∧ propsLine [] (String.toList "a=b c")
        = Except.ok (dictSet [] (String.mk (pyStrip (String.toList "a")))
            (propTokens (String.toList "b c") [])) :=
  ⟨by decide,
    properties_line_tokenization.2.1 [] (String.toList "a=b c")
      (String.toList "a") (String.toList "b c") (by decide) (by decide) (by decide)⟩

/-- Claim C9: `parse_simple_config` maps, for each non-blank, non-`#`-comment line
containing `=`, the trimmed text before the first `=` to the trimmed text after it
(the value may itself contain `=`); blank lines, comment lines and `=`-free lines
produce no entries. -/
theorem simple_config_lines :
    (∀ (d : List (String × String)) (rawLine : List Char) (l1 l2 : List Char),
        pyStrip rawLine = l1 ++ '=' :: l2 → '=' ∉ l1 →
        (pyStrip rawLine).head? ≠ some '#' →
        simpleLine d rawLine
          = dictSet d (String.mk (pyStrip l1)) (String.mk (pyStrip l2)))
    ∧ (∀ (d : List (String × String)) (rawLine : List Char),
        pyStrip rawLine = [] ∨ (pyStrip rawLine).head? = some '#'
          ∨ '=' ∉ pyStrip rawLine →
        simpleLine d rawLine = d)
    ∧ parse_simple_config "key = value\n# comment\n\nnoequals\na=b=c"
        = [("key", "value"), ("a", "b=c")] := by
  refine ⟨?_, ?_, rfl⟩
  · intro d rawLine l1 l2 heq hnm hhash
    unfold simpleLine
    rw [heq, if_neg (by simp), if_neg (heq ▸ hhash),
      if_neg (by simp), splitFirst1_append hnm]
  · intro d rawLine h
    by_cases h1 : pyStrip rawLine = [] <;>
      by_cases h2 : (pyStrip rawLine).head? = some '#' <;>
      rcases h with h | h | h <;>
      simp [simpleLine, h1, h2, h]

theorem simple_config_lines_witness :
    pyStrip (String.toList " k = v ") = String.toList "k " ++ '=' :: String.toList " v"
    ∧ simpleLine [] (String.toList " k = v ") = [("k", "v")] :=
  ⟨by decide,
    (simple_config_lines.1 [] (String.toList " k = v ")
        (String.toList "k ") (String.toList " v")
        (by decide) (by decide) (by decide)).trans (by decide)⟩

/-- Claim C6: `parse_c_header_defines` produces an entry only for lines starting with
`#define` whose value token evaluates successfully as a literal; a line whose value
fails safe literal evaluation (including a bare definition with no value token, where
the value is null) is silently skipped without raising; and
`"#define FOO 42\n#define BAR \"x\"\n#define BAZ"` yields exactly
`{"FOO": 42, "BAR": "x"}`. -/
theorem header_define_lines :
    parse_c_header_defines "#define FOO 42\n#define BAR \"x\"\n#define BAZ"
        = Except.ok [("FOO", PyLit.int 42), ("BAR", PyLit.str "x")]
    ∧ (∀ (d : List (String × PyLit)) (line : List Char),
        ("#define".toList).isPrefixOf line = false → defineLine d line = Except.ok d)
    ∧ (∀ (d : List (String × PyLit)) (line t k : List Char),
        ("#define".toList).isPrefixOf line = true →
        pySplitWsMax2 line = [t, k] → defineLine d line = Except.ok d)
    ∧ (∀ (d : List (String × PyLit)) (line t k v : List Char),
        ("#define".toList).isPrefixOf line = true →
        pySplitWsMax2 line = [t, k, v] → evalLit v = none →
        defineLine d line = Except.ok d)
    ∧ (∀ (d : List (String × PyLit)) (line t k v : List Char) (l : PyLit),
        ("#define".toList).isPrefixOf line = true →
        pySplitWsMax2 line = [t, k, v] → evalLit v = some l →
        defineLine d line = Except.ok (dictSet d (String.mk k) l)) := by
  refine ⟨rfl, ?_, ?_, ?_, ?_⟩
  · intro d line hpre
    unfold defineLine
    rw [hpre, if_pos rfl]
  · intro d line t k hpre hts
    unfold defineLine
    rw [hpre, if_neg (by simp), hts]
  · intro d line t k v hpre hts hev
    unfold defineLine
    rw [hpre, if_neg (by simp), hts]
    simp [hev]
  · intro d line t k v l hpre hts hev
    unfold defineLine
    rw [hpre, if_neg (by simp), hts]
    simp [hev]

theorem header_define_lines_witness :
    pySplitWsMax2 (String.toList "#define FOO 42")
        = [String.toList "#define", String.toList "FOO", String.toList "42"]
    ∧ evalLit (String.toList "42") = some (PyLit.int 42)
    ∧ defineLine [] (String.toList "#define FOO 42")
        = Except.ok [("FOO", PyLit.int 42)] :=
  ⟨by decide, by decide,
    (header_define_lines.2.2.2.2 [] (String.toList "#define FOO 42")
        (String.toList "#define") (String.toList "FOO") (String.toList "42")
        (PyLit.int 42) (by decide) (by decide) (by decide)).trans rfl⟩

theorem dictHasKey_nil {α : Type} (k : String) :
    dictHasKey ([] : List (String × α)) k = false := rfl

theorem dictHasKey_cons {α : Type} (a : String) (x : α) (rest : List (String × α))
    (k : String) :
    dictHasKey ((a, x) :: rest) k = true ↔ (k = a ∨ dictHasKey rest k = true) := by
  by_cases h : a = k
  · subst h
    simp [dictHasKey, dictFind?]
  · have h2 : ¬ (k = a) := fun he => h he.symm
    simp [dictHasKey, dictFind?, h, h2]

/-- Claim C4: a successfully resolved metadata record contains exactly the four base
fields (`metadata_version`, mapped to the constant 1, plus `sdk_version`, `fw_type`,
`baudrate`) together with one field for each recognized dynamic name present in the
declared list; a name outside the recognized set contributes no field, triggers no
extraction and raises no error (dropping it from the list leaves the resolution
unchanged). -/
theorem metadata_record_fields :
    (∀ (fs : FS) (g p : String) (dyn : List String) (m : List (String × PyLit))
        (name : String), name ∉ recognizedFields →
        resolveDynamic fs g p (name :: dyn) m = resolveDynamic fs g p dyn m)
    ∧ (∀ (fs : FS) (g p : String) (dyn : List String) (sv ft bd : PyLit)
        (m : List (String × PyLit)),
        resolveDynamic fs g p dyn (baseMetadata sv ft bd) = Except.ok m →
        (∀ k, dictHasKey m k = true ↔
          (k = "metadata_version" ∨ k = "sdk_version" ∨ k = "fw_type" ∨ k = "baudrate"
            ∨ (k = "ezsp_version" ∧ "ezsp_version" ∈ dyn)
            ∨ (k = "cpc_version" ∧ "cpc_version" ∈ dyn)
            ∨ (k = "zwave_version" ∧ "zwave_version" ∈ dyn)
            ∨ (k = "ot_rcp_version" ∧ "ot_rcp_version" ∈ dyn)
            ∨ (k = "gecko_bootloader_version" ∧ "gecko_bootloader_version" ∈ dyn)))
        ∧ dictFind? m "metadata_version" = some (PyLit.int 1)) := by
  constructor
  · intro fs g p dyn m name hname
    have h1 : ¬ ("ezsp_version" = name) :=
      fun he => hname (he ▸ (by decide : "ezsp_version" ∈ recognizedFields))
    have h2 : ¬ ("cpc_version" = name) :=
      fun he => hname (he ▸ (by decide : "cpc_version" ∈ recognizedFields))
    have h3 : ¬ ("zwave_version" = name) :=
      fun he => hname (he ▸ (by decide : "zwave_version" ∈ recognizedFields))
    have h4 : ¬ ("ot_rcp_version" = name) :=
      fun he => hname (he ▸ (by decide : "ot_rcp_version" ∈ recognizedFields))
    have h5 : ¬ ("gecko_bootloader_version" = name) :=
      fun he => hname (he ▸ (by decide : "gecko_bootloader_version" ∈ recognizedFields))
    simp [resolveDynamic, runStep, List.mem_cons, h1, h2, h3, h4, h5]
  · intro fs g p dyn sv ft bd m hres
    unfold resolveDynamic at hres
    obtain ⟨m1, h1, hres⟩ := bindE_ok hres
    obtain ⟨m2, h2, hres⟩ := bindE_ok hres
    obtain ⟨m3, h3, hres⟩ := bindE_ok hres
    obtain ⟨m4, h4, h5⟩ := bindE_ok hres
    constructor
    · intro k
      rw [runStep_hasKey h5 k, runStep_hasKey h4 k, runStep_hasKey h3 k,
        runStep_hasKey h2 k, runStep_hasKey h1 k]
      have hbase : dictHasKey (baseMetadata sv ft bd) k = true ↔
          (k = "metadata_version" ∨ k = "sdk_version" ∨ k = "fw_type"
            ∨ k = "baudrate") := by
        simp [baseMetadata, dictHasKey_cons, dictHasKey_nil]
      rw [hbase]
      simp only [or_assoc]
    · rw [runStep_find_ne h5 "metadata_version" (by decide),
        runStep_find_ne h4 "metadata_version" (by decide),
        runStep_find_ne h3 "metadata_version" (by decide),
        runStep_find_ne h2 "metadata_version" (by decide),
        runStep_find_ne h1 "metadata_version" (by decide)]
      rfl

theorem metadata_record_fields_witness :
    resolveDynamic (fun _ => none) "/g" "/p" []
        (baseMetadata (PyLit.str "a") (PyLit.str "b") (PyLit.int 0))
      = Except.ok (baseMetadata (PyLit.str "a") (PyLit.str "b") (PyLit.int 0))
    ∧ dictFind? (baseMetadata (PyLit.str "a") (PyLit.str "b") (PyLit.int 0))
        "metadata_version" = some (PyLit.int 1) :=
  ⟨rfl,
    (metadata_record_fields.2 (fun _ => none) "/g" "/p" []
        (PyLit.str "a") (PyLit.str "b") (PyLit.int 0) _ rfl).2⟩

/-- Claim C7: every dynamic-field extraction failure propagates: whenever a declared
recognized field's extraction raises, the whole resolution is an error (no
partial-success record), with the single tolerated exception of the `cpc_version`
secondary suffix header, whose absence alone is caught and treated as no suffix; a
missing source file or a missing `version` key are such extraction failures. -/
theorem extraction_failure_propagation :
    (∀ (fs : FS) (g p : String) (dyn : List String) (m : List (String × PyLit))
        (name : String) (ex : Except PyErr PyLit) (e : PyErr),
        (name, ex) ∈ extractionTable fs g p → name ∈ dyn → ex = Except.error e →
        ∃ e2, resolveDynamic fs g p dyn m = Except.error e2)
    ∧ (∀ (fs : FS) (g p : String),
        fs (p ++ "/config/internal_app_config.h") = none →
        extract_cpc fs g p = Except.map PyLit.str (cpc_base fs g))
    ∧ (∀ (fs : FS) (g : String),
        fs (g ++ "/protocol/zigbee/esf.properties") = none →
        extract_ezsp fs g = Except.error PyErr.fileNotFoundError)
    ∧ (∀ (fs : FS) (g : String) (txt : String) (props : List (String × List String)),
        fs (g ++ "/protocol/zigbee/esf.properties") = some txt →
        parse_properties_file txt = Except.ok props →
        dictFind? props "version" = none →
        extract_ezsp fs g = Except.error PyErr.keyError) := by
  refine ⟨?_, ?_, ?_, ?_⟩
  · intro fs g p dyn m name ex e hmem hdyn he
    simp only [extractionTable, List.mem_cons, List.not_mem_nil, or_false,
      Prod.mk.injEq] at hmem
    unfold resolveDynamic
    rcases hmem with ⟨hn, hx⟩ | ⟨hn, hx⟩ | ⟨hn, hx⟩ | ⟨hn, hx⟩ | ⟨hn, hx⟩ <;>
      subst hn <;> rw [hx] at he
    · rw [runStep_mem_error m hdyn he]
      exact ⟨e, rfl⟩
    · apply bindE_error_of_forall
      intro m1
      rw [runStep_mem_error m1 hdyn he]
      exact ⟨e, rfl⟩
    · apply bindE_error_of_forall
      intro m1
      apply bindE_error_of_forall
      intro m2
      rw [runStep_mem_error m2 hdyn he]
      exact ⟨e, rfl⟩
    · apply bindE_error_of_forall
      intro m1
      apply bindE_error_of_forall
      intro m2
      apply bindE_error_of_forall
      intro m3
      rw [runStep_mem_error m3 hdyn he]
      exact ⟨e, rfl⟩
    · apply bindE_error_of_forall
      intro m1
      apply bindE_error_of_forall
      intro m2
      apply bindE_error_of_forall
      intro m3
      apply bindE_error_of_forall
      intro m4
      rw [runStep_mem_error m4 hdyn he]
      exact ⟨e, rfl⟩
  · intro fs g p h
    cases hb : cpc_base fs g with
    | error e =>
        simp [extract_cpc, hb, h, Except.map, bindE_error_left]
    | ok b =>
        simp [extract_cpc, hb, h, Except.map, bindE_ok_left, bindE_error_left,
          dictFind?]
  · intro fs g h
    simp [extract_ezsp, readText, h, bindE_error_left]
  · intro fs g txt props hf hp hv
    simp [extract_ezsp, readText, hf, hp, pyGetItem, hv, bindE_ok_left,
      bindE_error_left]

theorem extraction_failure_propagation_witness :
    extract_ezsp (fun _ => none) "/g" = Except.error PyErr.fileNotFoundError
    ∧ ∃ e2, resolveDynamic (fun _ => none) "/g" "/p" ["ezsp_version"] []
        = Except.error e2 :=
  ⟨rfl,
    extraction_failure_propagation.1 (fun _ => none) "/g" "/p" ["ezsp_version"] []
      "ezsp_version" (extract_ezsp (fun _ => none) "/g") PyErr.fileNotFoundError
      (by simp [extractionTable]) (by simp) rfl⟩
